import Mathlib

/-
Verification of the household order-resolution utilities in
`src/orders/utils/cascadia.py` (project "logistics", Cascadia orders).

The pandas DataFrames of the source are embedded as Lean lists of records.
A cell of the frame is a `Val`: either missing (`na`, pandas `NaN`), a
string, or an integer.  Columns that the source always treats as numeric
(`HH Reporter` after `int(...)`, the parsed `ss_date_1` timestamp) are
typed `Option Int` directly.  The two-level row index of the order frame,
`(record_id/household key, redcap_event_name)`, is carried explicitly on
each record as `houseId` and `eventKey`.

Order IDs are Python strings manipulated per code point
(`chr`/`ord`/indexing), so they are embedded as lists of natural-number
code points, which keeps `chr(ord(c) + 1)` total and faithful.
-/

namespace Cascadia

/-- A pandas cell: missing (NaN), a string, or an integer. -/
inductive Val where
  | na
  | s (v : String)
  | i (v : Int)
deriving DecidableEq, Repr

/-- Embedding of `pd.isna` on a single cell. -/
def valIsNa (v : Val) : Bool := v == Val.na

/-- Embedding of pandas `astype(int)` on a single non-missing cell. -/
def astypeInt (v : Val) : Val :=
  match v with
  | Val.na => Val.na
  | Val.i n => Val.i n
  | Val.s t => Val.i (t.toInt?.getD 0)

/-- One row of the Cascadia record snapshot.  `houseId` and `eventKey` are
the two levels of the frame's row index; the remaining fields are the
columns the order-resolution code reads. -/
structure Record where
  houseId : String
  eventKey : String
  redcap_repeat_instrument : Val
  hhReporter : Option Int
  streetAddress : Val
  aptNumber : Val
  city : Val
  state : Val
  zipcode : Val
  streetAddress2 : Val
  aptNumber2 : Val
  city2 : Val
  state2 : Val
  zipcode2 : Val
  prefFirstName : Val
  firstName : Val
  lastName : Val
  email : Val
  phone : Val
  deliveryInstructions : Val
  projectName : Val
  ss_date_1 : Option Int
  ss_return_tracking : Val
  pickup1 : Val
  pickup2 : Val
  ss_trigger_swab : Bool
  orderDate : Val
deriving DecidableEq, Repr

/-- Modelled from the spec: the resolved address bundle restricted to the
export column allow-list `USPS_EXPORT_COLS` (defined in
`src/orders/utils/common.py`, which is not part of the sources); per the
spec it retains the allow-listed address/contact/delivery columns.  The
row-index household key of the one-row pandas frame is kept as `houseId`
because `generate_order_number` reads it (`address.index[0][0]`). -/
structure Bundle where
  houseId : String
  streetAddress : Val
  aptNumber : Val
  city : Val
  state : Val
  zipcode : Val
  prefFirstName : Val
  lastName : Val
  email : Val
  phone : Val
  deliveryInstructions : Val
  projectName : Val
deriving DecidableEq, Repr

/-- One finalized row of the cumulative order sheet. -/
structure OrderLine where
  household : String
  sku : Nat
  quantity : Nat
  orderId : List Nat
  bundle : Bundle
deriving DecidableEq, Repr

/-- A record is a symptom-survey row
(`redcap_repeat_instrument == 'symptom_survey'`). -/
def is_symptom_survey (r : Record) : Bool :=
  r.redcap_repeat_instrument == Val.s "symptom_survey"

/-- Code points of a Lean string, the embedding of a Python `str`. -/
def strCodes (t : String) : List Nat := t.data.map (fun c => c.toNat)

/-- Embedding of Python `str.isalpha` for a single code point.  The order
IDs are built from the numeric date, the household key and ASCII suffix
letters, so the ASCII ranges of `isalpha` are the relevant ones. -/
def isalphaCode (c : Nat) : Bool :=
  (65 ≤ c && c ≤ 90) || (97 ≤ c && c ≤ 122)

/-- One collision-mutation step of `generate_order_number`
(`src/orders/utils/cascadia.py:164-169`): if the final character is not a
letter, append `'a'` (code 97); otherwise replace the final character `c`
by `chr(ord(c) + 1)`. -/
def mutate_order_id (id : List Nat) : List Nat :=
  match id.getLast? with
  | none => id ++ [97]
  | some c => if isalphaCode c then id.dropLast ++ [c + 1] else id ++ [97]

/-- Final code point of an ID (0 when empty), used only for termination. -/
def lastCode (id : List Nat) : Nat := (id.getLast?).getD 0

/-- Termination key of an ID: its length paired with its final code. -/
def idKey (id : List Nat) : Nat × Nat := (id.length, lastCode id)

/-- Lexicographic strict order on termination keys. -/
def keyLT (a b : Nat × Nat) : Prop := a.1 < b.1 ∨ (a.1 = b.1 ∧ a.2 < b.2)

/-- Lexicographic order on termination keys. -/
def keyLE (a b : Nat × Nat) : Prop := a.1 < b.1 ∨ (a.1 = b.1 ∧ a.2 ≤ b.2)

instance : DecidableRel keyLE := fun a b => by unfold keyLE; infer_instance

theorem keyLE_refl (a : Nat × Nat) : keyLE a a := Or.inr ⟨rfl, le_refl _⟩

theorem keyLT_keyLE_trans {a b c : Nat × Nat} (h1 : keyLT a b) (h2 : keyLE b c) :
    keyLE a c := by
  rcases h1 with h1 | ⟨h1, h1a⟩ <;> rcases h2 with h2 | ⟨h2, h2a⟩ <;>
    first
      | exact Or.inl (by omega)
      | exact Or.inr ⟨by omega, by omega⟩

theorem keyLT_not_keyLE_rev {a b : Nat × Nat} (h1 : keyLT a b) : ¬ keyLE b a := by
  rcases h1 with h1 | ⟨h1, h1a⟩ <;> rintro (h2 | ⟨h2, h2a⟩) <;> omega

/-- Each mutation step strictly increases the termination key: appending a
character increases the length, bumping the final character increases the
final code and keeps the length. -/
theorem keyLT_mutate (id : List Nat) : keyLT (idKey id) (idKey (mutate_order_id id)) := by
  unfold mutate_order_id
  rcases hl : id.getLast? with _ | c
  · have h0 : id = [] := List.getLast?_eq_none_iff.mp hl
    subst h0
    exact Or.inl (by simp [idKey])
  · have hne : id ≠ [] := by
      intro h; subst h; simp at hl
    dsimp only
    by_cases ha : isalphaCode c
    · simp only [ha, if_true]
      refine Or.inr ⟨?_, ?_⟩
      · simp only [idKey, List.length_append, List.length_dropLast, List.length_singleton]
        have := List.length_pos.mpr hne
        omega
      · simp only [idKey, lastCode, List.getLast?_concat, hl]
        simp
    · simp only [ha, if_false]
      exact Or.inl (by simp [idKey])

/-- The number of sheet entries whose key is at least the current ID's key
strictly drops at each collision step; this is the loop variant. -/
theorem card_key_filter_lt (sheet : List (List Nat)) (id : List Nat) (h : id ∈ sheet) :
    (sheet.toFinset.filter
        (fun x => keyLE (idKey (mutate_order_id id)) (idKey x))).card <
      (sheet.toFinset.filter (fun x => keyLE (idKey id) (idKey x))).card := by
  apply Finset.card_lt_card
  rw [Finset.ssubset_iff_of_subset]
  · refine ⟨id, ?_, ?_⟩
    · exact Finset.mem_filter.mpr ⟨List.mem_toFinset.mpr h, keyLE_refl _⟩
    · intro hmem
      exact keyLT_not_keyLE_rev (keyLT_mutate id) (Finset.mem_filter.mp hmem).2
  · intro x hx
    rcases Finset.mem_filter.mp hx with ⟨hx1, hx2⟩
    exact Finset.mem_filter.mpr ⟨hx1, keyLT_keyLE_trans (keyLT_mutate id) hx2⟩

/-- Embedding of the `while order_id in orders['OrderID'].values` loop of
`generate_order_number` (`src/orders/utils/cascadia.py:163-169`). -/
def generate_order_number_loop (sheet : List (List Nat)) (id : List Nat) : List Nat :=
  if id ∈ sheet then generate_order_number_loop sheet (mutate_order_id id) else id
termination_by (sheet.toFinset.filter (fun x => keyLE (idKey id) (idKey x))).card
decreasing_by exact card_key_filter_lt sheet id (by assumption)

theorem generate_order_number_loop_eq (sheet : List (List Nat)) (id : List Nat) :
    generate_order_number_loop sheet id =
      if id ∈ sheet then generate_order_number_loop sheet (mutate_order_id id) else id := by
  rw [generate_order_number_loop]

/-- The collision loop only exits on an ID absent from the sheet, so its
result is never an already-issued order ID. -/
theorem generate_order_number_loop_not_mem (sheet : List (List Nat)) (id : List Nat) :
    generate_order_number_loop sheet id ∉ sheet := by
  refine generate_order_number_loop.induct sheet
    (fun i => generate_order_number_loop sheet i ∉ sheet) ?_ ?_ id
  · intro x hx ih
    rw [generate_order_number_loop_eq, if_pos hx]
    exact ih
  · intro x hx
    rw [generate_order_number_loop_eq, if_neg hx]
    exact hx

/-- Embedding of `generate_order_number`
(`src/orders/utils/cascadia.py:161-172`).  The current date's `YYMMDD`
string (`datetime.now`) is passed in as the code-point list `today`; the
base ID concatenates it with the household key taken from the address
bundle's row index (`address.index[0][0]`). -/
def generate_order_number (today : List Nat) (address : Bundle)
    (orders : List OrderLine) : List Nat :=
  generate_order_number_loop (orders.map (fun l => l.orderId))
    (today ++ strCodes address.houseId)

/-- The order line stamped onto the address bundle by `append_order`
(`src/orders/utils/cascadia.py:83-89`): SKU, quantity, a freshly generated
order ID checked against the sheet built so far, and the household key;
`pd.concat(..., join='inner', ignore_index=True)` then appends it as the
final row.  In the pipeline the sheet and the bundle share their column
set, so the inner join is a plain row append. -/
def stamp_line (today : List Nat) (orders : List OrderLine) (household : String)
    (sku : Nat) (quantity : Nat) (address : Bundle) : OrderLine :=
  { household := household
    sku := sku
    quantity := quantity
    orderId := generate_order_number today address orders
    bundle := address }

/-- Embedding of `append_order` (`src/orders/utils/cascadia.py:65-89`).
An address whose street, city and state are all missing is skipped
(sheet returned unchanged).  A resupply order (SKU 1) above 20 kits, or a
welcome order (SKU 3) above 4 kits, first appends the overflow recursively
and then continues with the capped quantity. -/
def append_order (today : List Nat) (orders : List OrderLine) (household : String)
    (sku : Nat) (quantity : Nat) (address : Bundle) : List OrderLine :=
  if valIsNa address.streetAddress && valIsNa address.city && valIsNa address.state then
    orders
  else if 20 < quantity ∧ sku = 1 then
    append_order today orders household sku (quantity - 20) address ++
      [stamp_line today (append_order today orders household sku (quantity - 20) address)
        household sku 20 address]
  else if 4 < quantity ∧ sku = 3 then
    append_order today orders household sku (quantity - 4) address ++
      [stamp_line today (append_order today orders household sku (quantity - 4) address)
        household sku 4 address]
  else
    orders ++ [stamp_line today orders household sku quantity address]
termination_by quantity
decreasing_by all_goals omega

/-- Embedding of `get_head_of_household`
(`src/orders/utils/cascadia.py:189-206`).  After `reset_index(level=0)`
the frame has a positional index, `tmp['HH Reporter'].notna().idxmax()`
is the first position whose pointer is not NaN (position 0 when there is
none), and a NaN value at that position falls back to index 0. -/
def get_head_of_household (records : List Record) : Int :=
  match records.find? (fun r => r.hhReporter.isSome) with
  | some r => r.hhReporter.getD 0
  | none => 0

/-- Embedding of `get_enrollment_address`
(`src/orders/utils/cascadia.py:150-158`): the row at index label
`'{head_of_house_idx}_arm_1'` whose `redcap_repeat_instrument` is NaN.
`none` models the KeyError / empty query of a household without such a
row; a multi-row result is represented by its first row, the one the
callers read. -/
def get_enrollment_address (records : List Record) : Option Record :=
  let idx := get_head_of_household records
  (records.filter (fun r => r.eventKey == toString idx ++ "_arm_1")).find?
    (fun r => valIsNa r.redcap_repeat_instrument)

/-- Row order used by `sort_values(by='ss_date_1', ascending=False)`: later
survey dates first, NaT (missing) dates last. -/
def dateGE (a b : Option Int) : Bool :=
  match a, b with
  | _, none => true
  | none, some _ => false
  | some x, some y => y ≤ x

/-- Embedding of `get_most_recent_address`
(`src/orders/utils/cascadia.py:115-147`): among the household's
symptom-survey rows sorted by survey date descending, the first whose
survey-scoped street, city and state are not all missing, with its address
fields overwritten from the survey-scoped (`... 2`) variants; `none` when
no such row exists.  The embedding uses a stable sort where pandas'
default quicksort leaves ties unspecified. -/
def get_most_recent_address (records : List Record) : Option Record :=
  let surveys := List.insertionSort
    (fun a b => dateGE a.ss_date_1 b.ss_date_1 = true)
    (records.filter is_symptom_survey)
  let complete := surveys.filter
    (fun r => !(valIsNa r.streetAddress2 && valIsNa r.city2 && valIsNa r.state2))
  match complete with
  | [] => none
  | r :: _ =>
      some { r with
        streetAddress := r.streetAddress2
        aptNumber := r.aptNumber2
        city := r.city2
        state := r.state2
        zipcode := r.zipcode2 }

/-- Embedding of `get_best_first_name`
(`src/orders/utils/cascadia.py:175-186`): the preferred first name when
present, else the legal first name. -/
def get_best_first_name (enroll : Record) : Val :=
  if !valIsNa enroll.prefFirstName then enroll.prefFirstName else enroll.firstName

/-- The project/location normalization of the Address Resolver
(`src/orders/utils/cascadia.py:109`): raw code 2 maps to
`'Cascadia_SEA'`, anything else to `'Cascadia_PDX'`. -/
def resolver_project_label (v : Val) : Val :=
  if v == Val.i 2 then Val.s "Cascadia_SEA" else Val.s "Cascadia_PDX"

/-- The zipcode normalization of the Address Resolver
(`src/orders/utils/cascadia.py:110`): cast to `int` when present, the
empty string when missing. -/
def zip_normalize (v : Val) : Val :=
  if !valIsNa v then astypeInt v else Val.s ""

/-- Embedding of `get_household_address`
(`src/orders/utils/cascadia.py:92-112`).  The survey-sourced address is
preferred when it exists.  The contact/delivery overwrites
`address['X'] = enroll_address['X']` are pandas Series assignments and
align on the row index: the enrollment value is copied only when the
chosen row's event key equals the enrollment row's event key, and the
column becomes NaN otherwise.  `get_best_first_name` returns a scalar, so
that assignment never aligns.  The result is restricted to the export
column set, i.e. to the `Bundle` fields. -/
def get_household_address (records : List Record) : Option Bundle :=
  match get_enrollment_address records with
  | none => none
  | some enroll =>
      let address := (get_most_recent_address records).getD enroll
      let aligned := address.eventKey == enroll.eventKey
      some {
        houseId := address.houseId
        streetAddress := address.streetAddress
        aptNumber := address.aptNumber
        city := address.city
        state := address.state
        zipcode := zip_normalize address.zipcode
        prefFirstName := get_best_first_name enroll
        lastName := if aligned then enroll.lastName else Val.na
        email := if aligned then enroll.email else Val.na
        phone := if aligned then enroll.phone else Val.na
        deliveryInstructions := if aligned then enroll.deliveryInstructions else Val.na
        projectName := resolver_project_label address.projectName }

/-- The project/location normalization of `assign_cascadia_location`
(`src/orders/utils/cascadia.py:13-23`), applied row-wise to the
`Project Name` column: raw code 2 maps to `'CASCADIA_SEA'`, anything else
to `'CASCADIA_PDX'` (the subsequent `astype(str)` leaves these string
labels unchanged). -/
def assign_cascadia_location_label (v : Val) : Val :=
  if v == Val.i 2 then Val.s "CASCADIA_SEA" else Val.s "CASCADIA_PDX"

/-- The two pickup-time-preference column labels.  In
`filter_cascadia_orders` the Python builtin
`any(orders[['Pickup 1', 'Pickup 2']].notna())` iterates over the
DataFrame, which yields these column labels; a nonempty label string is
truthy, so the expression evaluates independently of the rows' pickup
values. -/
def pickup_cols : List String := ["Pickup 1", "Pickup 2"]

/-- Embedding of `any(orders[['Pickup 1', 'Pickup 2']].notna())`
(`src/orders/utils/cascadia.py:51`): `any` over the frame's column labels,
the constant `true`. -/
def any_pickup_cols_notna : Bool := pickup_cols.any (fun c => !(c == ""))

/-- The row-selection predicate of `filter_cascadia_orders`
(`src/orders/utils/cascadia.py:48-52`): symptom survey, no tracking
number, the degenerate pickup-column test, and the swab-trigger flag. -/
def order_predicate (r : Record) : Bool :=
  is_symptom_survey r && valIsNa r.ss_return_tracking &&
    any_pickup_cols_notna && r.ss_trigger_swab

/-- The full `(household key, event key)` row index of a record, the key
`index.duplicated` deduplicates on. -/
def rowKey (r : Record) : String × String := (r.houseId, r.eventKey)

/-- Embedding of `.query("~index.duplicated(keep='last')")`
(`src/orders/utils/cascadia.py:54`): a row survives exactly when no later
row carries the same full index key. -/
def dedup_keep_last : List Record → List Record
  | [] => []
  | r :: rest =>
      if rest.any (fun x => rowKey x == rowKey r) then dedup_keep_last rest
      else r :: dedup_keep_last rest

/-- Embedding of the row selection of `filter_cascadia_orders`
(`src/orders/utils/cascadia.py:48-55`): predicate filter, drop of rows
without an order date, and keep-last index deduplication.  The subsequent
per-row steps (`use_best_address` from the absent `common.py`, the
scheduling fields, `assign_cascadia_location`) transform each surviving
row individually and do not change which rows are selected. -/
def filter_cascadia_orders_selection (orders : List Record) : List Record :=
  dedup_keep_last
    ((orders.filter order_predicate).filter (fun r => !valIsNa r.orderDate))

theorem append_order_eq (today : List Nat) (orders : List OrderLine) (household : String)
    (sku : Nat) (quantity : Nat) (address : Bundle) :
    append_order today orders household sku quantity address =
      if valIsNa address.streetAddress && valIsNa address.city &&
          valIsNa address.state then
        orders
      else if 20 < quantity ∧ sku = 1 then
        append_order today orders household sku (quantity - 20) address ++
          [stamp_line today (append_order today orders household sku (quantity - 20) address)
            household sku 20 address]
      else if 4 < quantity ∧ sku = 3 then
        append_order today orders household sku (quantity - 4) address ++
          [stamp_line today (append_order today orders household sku (quantity - 4) address)
            household sku 4 address]
      else
        orders ++ [stamp_line today orders household sku quantity address] := by
  rw [append_order]

theorem chain_le_append_cap {l : List Nat} {cap : Nat}
    (hall : ∀ x ∈ l, x ≤ cap) (hc : List.Chain' (· ≤ ·) l) :
    List.Chain' (· ≤ ·) (l ++ [cap]) := by
  induction l with
  | nil => simp
  | cons a t ih =>
      cases t with
      | nil =>
          simp only [List.singleton_append, List.chain'_cons, List.chain'_singleton,
            and_true]
          exact hall a (by simp)
      | cons b t2 =>
          simp only [List.cons_append]
          rw [List.chain'_cons]
          rw [List.chain'_cons] at hc
          refine ⟨hc.1, ?_⟩
          have hrest := ih (fun x hx => hall x (by simp at hx ⊢; tauto)) hc.2
          simpa using hrest

/-- Splitting invariant of `append_order` for a deliverable address: the
call appends a nonempty block of lines after the existing sheet, their
quantities sum to the request, every line carries the call's household and
SKU, capped lines respect the per-SKU caps (20 for SKU 1, 4 for SKU 3),
and quantities are nondecreasing in sheet order, i.e. the overflow
remainder precedes the capped lines. -/
theorem append_order_deliverable_spec (today : List Nat) (household : String)
    (sku : Nat) (address : Bundle)
    (hdel : (valIsNa address.streetAddress && valIsNa address.city &&
        valIsNa address.state) = false) :
    ∀ quantity orders, ∃ t : List OrderLine,
      append_order today orders household sku quantity address = orders ++ t
      ∧ t ≠ []
      ∧ (t.map OrderLine.quantity).sum = quantity
      ∧ (∀ l ∈ t, l.household = household ∧ l.sku = sku ∧
          (sku = 1 → l.quantity ≤ 20) ∧ (sku = 3 → l.quantity ≤ 4))
      ∧ List.Chain' (· ≤ ·) (t.map OrderLine.quantity) := by
  intro quantity
  induction quantity using Nat.strong_induction_on with
  | _ quantity ih =>
      intro orders
      rw [append_order_eq, hdel]
      simp only [Bool.false_eq_true, if_false]
      by_cases h1 : 20 < quantity ∧ sku = 1
      · rw [if_pos h1]
        obtain ⟨t, ht, htne, hsum, hprop, hchain⟩ := ih (quantity - 20) (by omega) orders
        rw [ht]
        refine ⟨t ++ [stamp_line today (orders ++ t) household sku 20 address],
          by rw [List.append_assoc], by simp, ?_, ?_, ?_⟩
        · simp only [List.map_append, List.sum_append, List.map_cons, List.map_nil,
            List.sum_cons, List.sum_nil, stamp_line, hsum]
          omega
        · intro l hl
          rcases List.mem_append.mp hl with hl | hl
          · exact hprop l hl
          · simp only [List.mem_singleton] at hl
            subst hl
            refine ⟨rfl, rfl, fun _ => by norm_num [stamp_line], fun h3 => ?_⟩
            rw [h3] at h1
            omega
        · simp only [List.map_append, List.map_cons, List.map_nil, stamp_line]
          refine chain_le_append_cap ?_ hchain
          intro x hx
          rcases List.mem_map.mp hx with ⟨l, hl, rfl⟩
          exact (hprop l hl).2.2.1 h1.2
      · rw [if_neg h1]
        by_cases h2 : 4 < quantity ∧ sku = 3
        · rw [if_pos h2]
          obtain ⟨t, ht, htne, hsum, hprop, hchain⟩ := ih (quantity - 4) (by omega) orders
          rw [ht]
          refine ⟨t ++ [stamp_line today (orders ++ t) household sku 4 address],
            by rw [List.append_assoc], by simp, ?_, ?_, ?_⟩
          · simp only [List.map_append, List.sum_append, List.map_cons, List.map_nil,
              List.sum_cons, List.sum_nil, stamp_line, hsum]
            omega
          · intro l hl
            rcases List.mem_append.mp hl with hl | hl
            · exact hprop l hl
            · simp only [List.mem_singleton] at hl
              subst hl
              refine ⟨rfl, rfl, fun h3 => ?_, fun _ => by norm_num [stamp_line]⟩
              rw [h3] at h2
              omega
          · simp only [List.map_append, List.map_cons, List.map_nil, stamp_line]
            refine chain_le_append_cap ?_ hchain
            intro x hx
            rcases List.mem_map.mp hx with ⟨l, hl, rfl⟩
            exact (hprop l hl).2.2.2 h2.2
        · rw [if_neg h2]
          refine ⟨[stamp_line today orders household sku quantity address],
            rfl, by simp, by simp [stamp_line], ?_, by simp⟩
          intro l hl
          simp only [List.mem_singleton] at hl
          subst hl
          exact ⟨rfl, rfl, fun h3 => by simp only [stamp_line]; omega,
            fun h3 => by simp only [stamp_line]; omega⟩

/-- Concrete `YYMMDD` date prefix used by the scenario theorems. -/
def today0 : List Nat := strCodes "240101"

/-- A deliverable address bundle for household key `H1`. -/
def c1_bundle : Bundle :=
  { houseId := "H1"
    streetAddress := Val.s "1 Main St"
    aptNumber := Val.na
    city := Val.s "Seattle"
    state := Val.s "WA"
    zipcode := Val.i 98101
    prefFirstName := Val.s "Sam"
    lastName := Val.s "Smith"
    email := Val.s "sam@example.org"
    phone := Val.s "5551234"
    deliveryInstructions := Val.s "porch"
    projectName := Val.i 2 }

/-- An address bundle with street, city and state all missing. -/
def na_bundle : Bundle :=
  { houseId := "H9"
    streetAddress := Val.na
    aptNumber := Val.na
    city := Val.na
    state := Val.na
    zipcode := Val.na
    prefFirstName := Val.na
    lastName := Val.na
    email := Val.na
    phone := Val.na
    deliveryInstructions := Val.na
    projectName := Val.i 1 }

/-- C1: for every `append_order` call with a deliverable address, the
appended Order Lines' quantities sum to the requested quantity, each line
respects its SKU's cap (20 for resupply SKU 1, 4 for welcome SKU 3), and
the overflow portion precedes the capped portion (quantities nondecreasing
in sheet order); in particular a resupply request of 45 yields exactly the
quantities [5, 20, 20] in sheet order with pairwise-distinct order IDs. -/
theorem claim_C1 :
    (∀ today orders household sku quantity address,
      (valIsNa address.streetAddress && valIsNa address.city &&
          valIsNa address.state) = false →
      ∃ t : List OrderLine,
        append_order today orders household sku quantity address = orders ++ t
        ∧ (t.map OrderLine.quantity).sum = quantity
        ∧ (∀ l ∈ t, (sku = 1 → l.quantity ≤ 20) ∧ (sku = 3 → l.quantity ≤ 4))
        ∧ List.Chain' (· ≤ ·) (t.map OrderLine.quantity))
    ∧ (append_order today0 [] "H1" 1 45 c1_bundle).map OrderLine.quantity = [5, 20, 20]
    ∧ ((append_order today0 [] "H1" 1 45 c1_bundle).map OrderLine.orderId).Nodup := by
  refine ⟨?_, ?_, ?_⟩
  · intro today orders household sku quantity address hdel
    obtain ⟨t, h1, _, h3, h4, h5⟩ :=
      append_order_deliverable_spec today household sku address hdel quantity orders
    exact ⟨t, h1, h3, fun l hl => ⟨(h4 l hl).2.2.1, (h4 l hl).2.2.2⟩, h5⟩
  · simp +decide [append_order_eq, generate_order_number, generate_order_number_loop_eq,
      stamp_line, mutate_order_id, strCodes, today0, c1_bundle, valIsNa, isalphaCode]
  · simp +decide [append_order_eq, generate_order_number, generate_order_number_loop_eq,
      stamp_line, mutate_order_id, strCodes, today0, c1_bundle, valIsNa, isalphaCode]

theorem claim_C1_witness :
    ((valIsNa c1_bundle.streetAddress && valIsNa c1_bundle.city &&
        valIsNa c1_bundle.state) = false)
    ∧ append_order today0 [] "H1" 1 45 c1_bundle ≠ [] := by
  refine ⟨by decide, ?_⟩
  obtain ⟨t, h1, h2, _, _⟩ := claim_C1.1 today0 [] "H1" 1 45 c1_bundle (by decide)
  simp only [List.nil_append] at h1
  rw [h1]
  intro hc
  rw [hc] at h2
  simp at h2

/-- C6: when the address bundle's street, city and state are all missing,
`append_order` is a no-op and returns the order sheet unchanged. -/
theorem claim_C6 (today : List Nat) (orders : List OrderLine) (household : String)
    (sku quantity : Nat) (address : Bundle)
    (hs : address.streetAddress = Val.na) (hc : address.city = Val.na)
    (hst : address.state = Val.na) :
    append_order today orders household sku quantity address = orders := by
  rw [append_order_eq]
  simp [valIsNa, hs, hc, hst]

theorem claim_C6_witness :
    na_bundle.streetAddress = Val.na ∧ na_bundle.city = Val.na
    ∧ na_bundle.state = Val.na
    ∧ append_order today0 [] "H9" 1 45 na_bundle = [] :=
  ⟨rfl, rfl, rfl, claim_C6 today0 [] "H9" 1 45 na_bundle rfl rfl rfl⟩

/-- C10: `append_order` is append-only: the returned sheet is the input
sheet, unchanged and in order, followed by the lines of this call. -/
theorem claim_C10 (today : List Nat) (orders : List OrderLine) (household : String)
    (sku quantity : Nat) (address : Bundle) :
    ∃ t : List OrderLine,
      append_order today orders household sku quantity address = orders ++ t := by
  rcases hval : (valIsNa address.streetAddress && valIsNa address.city &&
      valIsNa address.state) with _ | _
  · obtain ⟨t, ht, _⟩ :=
      append_order_deliverable_spec today household sku address hval quantity orders
    exact ⟨t, ht⟩
  · rw [append_order_eq, hval]
    exact ⟨[], by simp⟩

/-- N successive `generate_order_number` calls against a growing sheet:
each generated ID joins the sheet before the next call, exactly as
successive `append_order` lines extend `orders['OrderID']`. -/
def gen_calls (sheet : List (List Nat)) (base : List Nat) : Nat → List (List Nat)
  | 0 => []
  | n + 1 =>
      generate_order_number_loop sheet base ::
        gen_calls (sheet ++ [generate_order_number_loop sheet base]) base n

/-- The sheet contents after k calls that started from the one-entry sheet
`[base]`: the base ID plus the first k letter-suffixed IDs. -/
def sheetK (base : List Nat) (k : Nat) : List (List Nat) :=
  base :: (List.range k).map (fun i => base ++ [97 + i])

theorem mem_append_sheetK (base : List Nat) (j k : Nat) :
    (base ++ [97 + j]) ∈ sheetK base k ↔ j < k := by
  simp only [sheetK, List.mem_cons, List.mem_map, List.mem_range]
  constructor
  · rintro (h | ⟨i, hi, h⟩)
    · have hlen := congrArg List.length h
      simp at hlen
    · have : 97 + i = 97 + j := by
        have h2 := List.append_cancel_left h
        simpa using h2
      omega
  · intro h
    exact Or.inr ⟨j, h, rfl⟩

theorem mutate_append_alpha (base : List Nat) (c : Nat) (h : isalphaCode c = true) :
    mutate_order_id (base ++ [c]) = base ++ [c + 1] := by
  unfold mutate_order_id
  rw [List.getLast?_concat]
  simp [h, List.dropLast_concat]

theorem mutate_nonalpha (id : List Nat) (c : Nat) (hl : id.getLast? = some c)
    (h : isalphaCode c = false) :
    mutate_order_id id = id ++ [97] := by
  unfold mutate_order_id
  rw [hl]
  simp [h]

/-- Walking the collision loop from suffix letter `97 + j` over the sheet
of the first k suffixed IDs ends at the first free suffix `97 + k`. -/
theorem loop_from_j (base : List Nat) (k : Nat) (hk : k ≤ 26) :
    ∀ d j, j + d = k →
      generate_order_number_loop (sheetK base k) (base ++ [97 + j]) = base ++ [97 + k] := by
  intro d
  induction d with
  | zero =>
      intro j hj
      have hjk : j = k := by omega
      subst hjk
      rw [generate_order_number_loop_eq,
        if_neg (fun hmem => absurd ((mem_append_sheetK base j j).mp hmem) (by omega))]
  | succ d ih =>
      intro j hj
      rw [generate_order_number_loop_eq,
        if_pos ((mem_append_sheetK base j k).mpr (by omega))]
      rw [mutate_append_alpha base (97 + j) (by simp [isalphaCode]; omega)]
      have harith : 97 + j + 1 = 97 + (j + 1) := by omega
      rw [harith]
      exact ih (j + 1) (by omega)

/-- One generator call over the sheet of the first k suffixed IDs returns
the next suffixed ID, provided the base ends in a non-letter. -/
theorem loop_sheetK_base (base : List Nat) (c : Nat) (hlast : base.getLast? = some c)
    (hna : isalphaCode c = false) (k : Nat) (hk : k ≤ 26) :
    generate_order_number_loop (sheetK base k) base = base ++ [97 + k] := by
  rw [generate_order_number_loop_eq, if_pos (by simp [sheetK])]
  rw [mutate_nonalpha base c hlast hna]
  have h0 : base ++ [97] = base ++ [97 + 0] := by norm_num
  rw [h0]
  exact loop_from_j base k hk k 0 (by omega)

theorem gen_calls_sheetK (base : List Nat) (c : Nat) (hlast : base.getLast? = some c)
    (hna : isalphaCode c = false) :
    ∀ N k, k + N ≤ 26 →
      gen_calls (sheetK base k) base N =
        (List.range N).map (fun i => base ++ [97 + (k + i)]) := by
  intro N
  induction N with
  | zero => intro k hk; simp [gen_calls]
  | succ n ih =>
      intro k hk
      rw [gen_calls]
      rw [loop_sheetK_base base c hlast hna k (by omega)]
      have hsheet : sheetK base k ++ [base ++ [97 + k]] = sheetK base (k + 1) := by
        simp [sheetK, List.range_succ]
      rw [hsheet, ih (k + 1) (by omega)]
      simp only [List.range_succ_eq_map, List.map_cons, List.map_map, List.cons.injEq]
      constructor
      · norm_num
      · apply List.map_congr_left
        intro i hi
        simp only [Function.comp_apply]
        have : 97 + (k + 1 + i) = 97 + (k + (i + 1)) := by omega
        rw [this]

/-- C2: `generate_order_number` never returns an ID already on the sheet,
and N successive calls (N ≤ 26, alphabet suffixes) against a sheet already
holding the base ID — whose final character is not a letter — return the
distinct IDs suffixed 'a', 'b', 'c', … in strict generation order. -/
theorem claim_C2 :
    (∀ sheet id, generate_order_number_loop sheet id ∉ sheet)
    ∧ (∀ base c, base.getLast? = some c → isalphaCode c = false →
        ∀ N, N ≤ 26 →
          gen_calls [base] base N = (List.range N).map (fun i => base ++ [97 + i])
          ∧ (gen_calls [base] base N).Nodup) := by
  refine ⟨generate_order_number_loop_not_mem, ?_⟩
  intro base c hlast hna N hN
  have h0 : sheetK base 0 = [base] := by simp [sheetK]
  have h := gen_calls_sheetK base c hlast hna N 0 (by omega)
  rw [h0] at h
  have heq : gen_calls [base] base N = (List.range N).map (fun i => base ++ [97 + i]) := by
    rw [h]
    apply List.map_congr_left
    intro i hi
    norm_num
  refine ⟨heq, ?_⟩
  rw [heq]
  refine List.Nodup.map ?_ (List.nodup_range N)
  intro a b hab
  have h2 := List.append_cancel_left hab
  simpa using h2

theorem claim_C2_witness :
    (strCodes "240101h7").getLast? = some 55
    ∧ isalphaCode 55 = false
    ∧ gen_calls [strCodes "240101h7"] (strCodes "240101h7") 3 =
        [strCodes "240101h7" ++ [97], strCodes "240101h7" ++ [98],
          strCodes "240101h7" ++ [99]] := by
  refine ⟨by decide, by decide, ?_⟩
  have h := (claim_C2.2 (strCodes "240101h7") 55 (by decide) (by decide) 3 (by decide)).1
  rw [h]
  decide

/-- A baseline record with every optional column missing; the concrete
scenario records below override the fields they need. -/
def sample_record : Record :=
  { houseId := "11"
    eventKey := "0_arm_1"
    redcap_repeat_instrument := Val.na
    hhReporter := none
    streetAddress := Val.na
    aptNumber := Val.na
    city := Val.na
    state := Val.na
    zipcode := Val.na
    streetAddress2 := Val.na
    aptNumber2 := Val.na
    city2 := Val.na
    state2 := Val.na
    zipcode2 := Val.na
    prefFirstName := Val.na
    firstName := Val.na
    lastName := Val.na
    email := Val.na
    phone := Val.na
    deliveryInstructions := Val.na
    projectName := Val.i 1
    ss_date_1 := none
    ss_return_tracking := Val.na
    pickup1 := Val.na
    pickup2 := Val.na
    ss_trigger_swab := false
    orderDate := Val.na }

theorem head_of_household_none (records : List Record)
    (h : ∀ r ∈ records, r.hhReporter = none) : get_head_of_household records = 0 := by
  unfold get_head_of_household
  have hfind : records.find? (fun r => r.hhReporter.isSome) = none :=
    List.find?_eq_none.mpr (by intro x hx; simp [h x hx])
  rw [hfind]

theorem head_of_household_first (records : List Record) :
    ∀ i, ∀ hi : i < records.length,
      (∀ j, ∀ hj : j < records.length, j < i →
        (records.get ⟨j, hj⟩).hhReporter = none) →
      ∀ v : Int, (records.get ⟨i, hi⟩).hhReporter = some v →
        get_head_of_household records = v := by
  induction records with
  | nil => intro i hi; simp at hi
  | cons a rest ih =>
      intro i hi hprev v hv
      cases i with
      | zero =>
          have hv0 : a.hhReporter = some v := hv
          unfold get_head_of_household
          rw [List.find?_cons_of_pos _ (by simp [hv0])]
          simp [hv0]
      | succ i2 =>
          have ha : a.hhReporter = none := by
            have h0 := hprev 0 (by simp) (by omega)
            simpa using h0
          have hv2 : (rest.get ⟨i2, by simpa using hi⟩).hhReporter = some v := hv
          have hprev2 : ∀ j, ∀ hj : j < rest.length, j < i2 →
              (rest.get ⟨j, hj⟩).hhReporter = none := by
            intro j hj hji
            exact hprev (j + 1) (by simpa using Nat.succ_lt_succ hj) (by omega)
          have hrec := ih i2 (by simpa using hi) hprev2 v hv2
          unfold get_head_of_household at hrec ⊢
          rw [List.find?_cons_of_neg _ (by simp [ha])]
          exact hrec

/-- C7: for a nonempty household record set, `get_head_of_household`
returns the first non-missing head-of-household pointer in record order,
as an integer, and falls back to index 0 when no record carries one. -/
theorem claim_C7 (records : List Record) (_hne : records ≠ []) :
    ((∀ r ∈ records, r.hhReporter = none) → get_head_of_household records = 0)
    ∧ (∀ i, ∀ hi : i < records.length,
        (∀ j, ∀ hj : j < records.length, j < i →
          (records.get ⟨j, hj⟩).hhReporter = none) →
        ∀ v : Int, (records.get ⟨i, hi⟩).hhReporter = some v →
          get_head_of_household records = v) :=
  ⟨head_of_household_none records, head_of_household_first records⟩

/-- Household with no pointer on its first record and pointer 1 on its
second. -/
def c7_records : List Record :=
  [ { sample_record with hhReporter := none },
    { sample_record with eventKey := "1_arm_1", hhReporter := some 1 } ]

theorem claim_C7_witness :
    c7_records ≠ [] ∧ get_head_of_household c7_records = 1 := by
  refine ⟨by simp [c7_records], ?_⟩
  refine (claim_C7 c7_records (by simp [c7_records])).2 1 (by simp [c7_records]) ?_ 1 rfl
  intro j hj hji
  have hj0 : j = 0 := by omega
  subst hj0
  rfl

/-- Head-of-household enrollment row of household `11` at event `0_arm_1`,
with full contact data. -/
def c3_enroll : Record :=
  { sample_record with
    eventKey := "0_arm_1"
    hhReporter := some 0
    streetAddress := Val.s "1 Main St"
    city := Val.s "Seattle"
    state := Val.s "WA"
    zipcode := Val.i 98101
    prefFirstName := Val.s "Sam"
    firstName := Val.s "Samuel"
    lastName := Val.s "Smith"
    email := Val.s "sam@example.org"
    phone := Val.s "5551234"
    deliveryInstructions := Val.s "leave at porch"
    projectName := Val.i 2 }

/-- Newer complete-address symptom survey from another participant of the
household (event `1_arm_1`). -/
def c3_survey_new : Record :=
  { sample_record with
    eventKey := "1_arm_1"
    redcap_repeat_instrument := Val.s "symptom_survey"
    ss_date_1 := some 200
    streetAddress2 := Val.s "9 New Rd"
    city2 := Val.s "Portland"
    state2 := Val.s "OR"
    zipcode2 := Val.i 97201 }

/-- Older complete-address symptom survey of the same household. -/
def c3_survey_old : Record :=
  { sample_record with
    eventKey := "2_arm_1"
    redcap_repeat_instrument := Val.s "symptom_survey"
    ss_date_1 := some 100
    streetAddress2 := Val.s "4 Old Rd"
    city2 := Val.s "Olympia"
    state2 := Val.s "WA"
    zipcode2 := Val.i 98501 }

/-- C3: on a household whose most recent complete survey address comes
from a different event row than the head-of-household's enrollment row,
`get_household_address` does select the most recent survey address, but
the index-aligned contact/delivery assignments produce missing values
instead of the enrollment record's values (only the scalar preferred-name
assignment survives), contradicting the claimed invariant and the code's
own comment. -/
theorem claim_C3 :
    (get_household_address [c3_enroll, c3_survey_new, c3_survey_old]).map
        Bundle.streetAddress = some (Val.s "9 New Rd")
    ∧ (get_household_address [c3_enroll, c3_survey_new, c3_survey_old]).map
        Bundle.city = some (Val.s "Portland")
    ∧ (get_household_address [c3_enroll, c3_survey_new, c3_survey_old]).map
        Bundle.prefFirstName = some (Val.s "Sam")
    ∧ (get_household_address [c3_enroll, c3_survey_new, c3_survey_old]).map
        Bundle.lastName = some Val.na
    ∧ (get_household_address [c3_enroll, c3_survey_new, c3_survey_old]).map
        Bundle.email = some Val.na
    ∧ (get_household_address [c3_enroll, c3_survey_new, c3_survey_old]).map
        Bundle.phone = some Val.na
    ∧ (get_household_address [c3_enroll, c3_survey_new, c3_survey_old]).map
        Bundle.deliveryInstructions = some Val.na
    ∧ c3_enroll.lastName = Val.s "Smith"
    ∧ c3_enroll.deliveryInstructions = Val.s "leave at porch" := by
  decide

/-- C8 (amended): with no complete survey address, the resolver keeps the
enrollment row's address fields, restricted to the export columns, up to
the project/location normalization, the zipcode normalization (integer
cast when present, empty string when missing) and the preferred-name
fallback; the contact/delivery fields are the enrollment row's own. -/
theorem claim_C8 (records : List Record) (enroll : Record)
    (h1 : get_enrollment_address records = some enroll)
    (h2 : get_most_recent_address records = none) :
    ∃ b : Bundle, get_household_address records = some b
      ∧ b.houseId = enroll.houseId
      ∧ b.streetAddress = enroll.streetAddress
      ∧ b.aptNumber = enroll.aptNumber
      ∧ b.city = enroll.city
      ∧ b.state = enroll.state
      ∧ b.zipcode = zip_normalize enroll.zipcode
      ∧ b.projectName = resolver_project_label enroll.projectName
      ∧ b.prefFirstName = get_best_first_name enroll
      ∧ b.lastName = enroll.lastName
      ∧ b.email = enroll.email
      ∧ b.phone = enroll.phone
      ∧ b.deliveryInstructions = enroll.deliveryInstructions := by
  unfold get_household_address
  simp only [h1, h2, Option.getD_none, beq_self_eq_true, if_true]
  exact ⟨_, rfl, rfl, rfl, rfl, rfl, rfl, rfl, rfl, rfl, rfl, rfl, rfl, rfl⟩

/-- Enrollment-only household whose zipcode and preferred first name are
missing. -/
def c8_enroll : Record :=
  { sample_record with
    houseId := "12"
    eventKey := "0_arm_1"
    hhReporter := some 0
    streetAddress := Val.s "2 Oak St"
    city := Val.s "Seattle"
    state := Val.s "WA"
    zipcode := Val.na
    prefFirstName := Val.na
    firstName := Val.s "John"
    lastName := Val.s "Doe"
    projectName := Val.i 1 }

theorem claim_C8_counterexample :
    (get_household_address [c8_enroll]).map Bundle.zipcode = some (Val.s "")
    ∧ c8_enroll.zipcode = Val.na
    ∧ (get_household_address [c8_enroll]).map Bundle.zipcode ≠ some c8_enroll.zipcode
    ∧ (get_household_address [c8_enroll]).map Bundle.prefFirstName = some (Val.s "John")
    ∧ c8_enroll.prefFirstName = Val.na := by
  decide

theorem claim_C8_witness :
    get_enrollment_address [c8_enroll] = some c8_enroll
    ∧ get_most_recent_address [c8_enroll] = none
    ∧ (get_household_address [c8_enroll]).map Bundle.city = some c8_enroll.city := by
  refine ⟨by decide, by decide, ?_⟩
  obtain ⟨b, hb, hhouse, hstreet, hapt, hcity, hrest⟩ :=
    claim_C8 [c8_enroll] c8_enroll (by decide) (by decide)
  rw [hb]
  simp [hcity]

theorem claim_C9_counterexample :
    assign_cascadia_location_label (Val.i 2) = Val.s "CASCADIA_SEA"
    ∧ resolver_project_label (Val.i 2) = Val.s "Cascadia_SEA"
    ∧ assign_cascadia_location_label (Val.i 2) ≠ resolver_project_label (Val.i 2) := by
  decide

/-- C9 (amended): the Order Filter's and the Address Resolver's
project/location normalizations have the same binary shape — raw code 2
to a SEA label, any other value to a PDX label, two outputs per site —
but their canonical labels differ in capitalization, so the two mappings
agree on no input. -/
theorem claim_C9 :
    (∀ v : Val,
      (v = Val.i 2 →
        assign_cascadia_location_label v = Val.s "CASCADIA_SEA"
        ∧ resolver_project_label v = Val.s "Cascadia_SEA")
      ∧ (v ≠ Val.i 2 →
        assign_cascadia_location_label v = Val.s "CASCADIA_PDX"
        ∧ resolver_project_label v = Val.s "Cascadia_PDX"))
    ∧ ∀ v : Val, assign_cascadia_location_label v ≠ resolver_project_label v := by
  constructor
  · intro v
    constructor
    · rintro rfl
      exact ⟨by decide, by decide⟩
    · intro hv
      unfold assign_cascadia_location_label resolver_project_label
      rw [if_neg (by simpa using hv), if_neg (by simpa using hv)]
      exact ⟨rfl, rfl⟩
  · intro v
    unfold assign_cascadia_location_label resolver_project_label
    by_cases hv : (v == Val.i 2) = true
    · rw [if_pos hv, if_pos hv]
      decide
    · rw [if_neg hv, if_neg hv]
      decide

theorem claim_C9_witness :
    ((Val.i 5 : Val) ≠ Val.i 2)
    ∧ assign_cascadia_location_label (Val.i 5) = Val.s "CASCADIA_PDX"
    ∧ resolver_project_label (Val.i 5) = Val.s "Cascadia_PDX" := by
  refine ⟨by decide, ?_, ?_⟩
  · exact ((claim_C9.1 (Val.i 5)).2 (by decide)).1
  · exact ((claim_C9.1 (Val.i 5)).2 (by decide)).2

/-- A symptom-survey row with BOTH pickup-preference fields missing that
nevertheless satisfies the remaining selection conjuncts. -/
def c4_row : Record :=
  { sample_record with
    houseId := "7"
    eventKey := "1_arm_1"
    redcap_repeat_instrument := Val.s "symptom_survey"
    ss_return_tracking := Val.na
    pickup1 := Val.na
    pickup2 := Val.na
    ss_trigger_swab := true
    orderDate := Val.s "2024-01-02" }

/-- C4: the Order Filter selects a survey row whose two pickup-preference
fields are both missing, because `any(orders[['Pickup 1', 'Pickup 2']]
.notna())` ranges over the column labels and is constantly true. -/
theorem claim_C4 :
    filter_cascadia_orders_selection [c4_row] = [c4_row]
    ∧ c4_row.pickup1 = Val.na
    ∧ c4_row.pickup2 = Val.na
    ∧ any_pickup_cols_notna = true := by
  decide

theorem mem_of_mem_dedup {l : List Record} {r : Record}
    (h : r ∈ dedup_keep_last l) : r ∈ l := by
  induction l with
  | nil => simp [dedup_keep_last] at h
  | cons a rest ih =>
      by_cases hc : (rest.any (fun x => rowKey x == rowKey a)) = true
      · rw [dedup_keep_last, if_pos hc] at h
        exact List.mem_cons_of_mem a (ih h)
      · rw [dedup_keep_last, if_neg hc] at h
        rcases List.mem_cons.mp h with rfl | h2
        · exact List.mem_cons_self r rest
        · exact List.mem_cons_of_mem a (ih h2)

theorem dedup_keys_nodup (l : List Record) :
    ((dedup_keep_last l).map rowKey).Nodup := by
  induction l with
  | nil => simp [dedup_keep_last]
  | cons a rest ih =>
      by_cases hc : (rest.any (fun x => rowKey x == rowKey a)) = true
      · rw [dedup_keep_last, if_pos hc]
        exact ih
      · rw [dedup_keep_last, if_neg hc]
        simp only [List.map_cons, List.nodup_cons]
        refine ⟨?_, ih⟩
        intro hmem
        rcases List.mem_map.mp hmem with ⟨x, hx, hxk⟩
        exact hc (List.any_eq_true.mpr ⟨x, mem_of_mem_dedup hx, by simp [hxk]⟩)

theorem dedup_sublist (l : List Record) : List.Sublist (dedup_keep_last l) l := by
  induction l with
  | nil => simp [dedup_keep_last]
  | cons a rest ih =>
      by_cases hc : (rest.any (fun x => rowKey x == rowKey a)) = true
      · rw [dedup_keep_last, if_pos hc]
        exact ih.cons a
      · rw [dedup_keep_last, if_neg hc]
        exact ih.cons₂ a

theorem dedup_find_last {l : List Record} {r : Record}
    (h : r ∈ dedup_keep_last l) :
    l.reverse.find? (fun x => rowKey x == rowKey r) = some r := by
  induction l with
  | nil => simp [dedup_keep_last] at h
  | cons a rest ih =>
      rw [List.reverse_cons]
      by_cases hc : (rest.any (fun x => rowKey x == rowKey a)) = true
      · rw [dedup_keep_last, if_pos hc] at h
        rw [List.find?_append, ih h]
        rfl
      · rw [dedup_keep_last, if_neg hc] at h
        rcases List.mem_cons.mp h with rfl | h2
        · have hnone : rest.reverse.find? (fun x => rowKey x == rowKey r) = none := by
            rw [List.find?_eq_none]
            intro x hx hbeq
            exact hc (List.any_eq_true.mpr ⟨x, List.mem_reverse.mp hx, hbeq⟩)
          rw [List.find?_append, hnone]
          simp
        · rw [List.find?_append, ih h2]
          rfl

theorem dedup_of_keys_nodup {l : List Record} (h : (l.map rowKey).Nodup) :
    dedup_keep_last l = l := by
  induction l with
  | nil => rfl
  | cons a rest ih =>
      simp only [List.map_cons, List.nodup_cons] at h
      have hc : (rest.any (fun x => rowKey x == rowKey a)) = false := by
        rw [List.any_eq_false]
        intro x hx hbeq
        exact h.1 (List.mem_map.mpr ⟨x, hx, by simpa using hbeq⟩)
      rw [dedup_keep_last, if_neg (by simp [hc]), ih h.2]

/-- C5 (amended): the Order Filter's deduplication keeps at most one row
per full `(household key, event key)` index key — not per household —, a
surviving row is always the last selected row carrying its index key, the
output is a subsequence of the selected rows (original order), and the
deduplication is idempotent, so re-running on an unchanged snapshot is
drift-free. -/
theorem claim_C5 (orders : List Record) :
    ((filter_cascadia_orders_selection orders).map rowKey).Nodup
    ∧ List.Sublist (filter_cascadia_orders_selection orders)
        ((orders.filter order_predicate).filter (fun r => !valIsNa r.orderDate))
    ∧ (∀ r ∈ filter_cascadia_orders_selection orders,
        ((orders.filter order_predicate).filter
            (fun r2 => !valIsNa r2.orderDate)).reverse.find?
          (fun x => rowKey x == rowKey r) = some r)
    ∧ dedup_keep_last (filter_cascadia_orders_selection orders) =
        filter_cascadia_orders_selection orders := by
  unfold filter_cascadia_orders_selection
  exact ⟨dedup_keys_nodup _, dedup_sublist _, fun r hr => dedup_find_last hr,
    dedup_of_keys_nodup (dedup_keys_nodup _)⟩

/-- First qualifying survey row of household `11` (event `1_arm_1`). -/
def c5_row1 : Record :=
  { sample_record with
    houseId := "11"
    eventKey := "1_arm_1"
    redcap_repeat_instrument := Val.s "symptom_survey"
    ss_trigger_swab := true
    orderDate := Val.s "2024-01-02"
    pickup1 := Val.i 1 }

/-- Second qualifying survey row of the same household at a different
event key (event `2_arm_1`). -/
def c5_row2 : Record :=
  { sample_record with
    houseId := "11"
    eventKey := "2_arm_1"
    redcap_repeat_instrument := Val.s "symptom_survey"
    ss_trigger_swab := true
    orderDate := Val.s "2024-01-03"
    pickup1 := Val.i 2 }

theorem claim_C5_counterexample :
    filter_cascadia_orders_selection [c5_row1, c5_row2] = [c5_row1, c5_row2]
    ∧ c5_row1.houseId = c5_row2.houseId
    ∧ c5_row1 ≠ c5_row2 := by
  decide

theorem claim_C5_witness :
    c5_row1 ∈ filter_cascadia_orders_selection [c5_row1, c5_row2]
    ∧ (([c5_row1, c5_row2].filter order_predicate).filter
          (fun r2 => !valIsNa r2.orderDate)).reverse.find?
        (fun x => rowKey x == rowKey c5_row1) = some c5_row1 := by
  refine ⟨by decide, ?_⟩
  exact (claim_C5 [c5_row1, c5_row2]).2.2.1 c5_row1 (by decide)

end Cascadia







